import Mathlib

/-!
Verification of the rsolr Solr client core against its source.

The development shallowly embeds the parts of `src/lib.rs`, `src/cursor.rs`,
`src/query.rs` and `src/term.rs` that the checked properties talk about:

* a model of `serde_json::Value` (`Json`) together with the indexing and
  `as_str` operations the client uses;
* the `application/x-www-form-urlencoded` pair encoding used by
  `Url::query_pairs_mut().append_pair` and the path-segment percent
  encoding used by `Url::path_segments_mut().push` (from the `url` and
  `form_urlencoded` crates the client calls into);
* the `Client` builder state (handler, url, payload, stored response)
  with its fluent operations, `run`, and `get_response`;
* the `Cursor` state machine of `src/cursor.rs`;
* the `Term` query fragment builder of `src/query.rs` / `src/term.rs`.

HTTP transport is external: `run` is modelled as a function of the
transport outcome (`HttpResult`), where a response body is carried
together with its `serde_json` parse result.  A Rust `panic!`/`unwrap`
failure is modelled as a distinguished outcome, never as a returned value.
-/

/-- Model of `serde_json::Value`.  Objects keep field order (serde_json is
used without the `preserve_order` feature, but none of the checked
properties depends on object-key ordering; numbers are modelled as
integers, which covers every body the claims touch). -/
inductive Json where
  | null : Json
  | bool (b : Bool) : Json
  | num (n : Int) : Json
  | str (s : String) : Json
  | arr (xs : List Json) : Json
  | obj (fields : List (String × Json)) : Json

/-- Association-list lookup used to model field access on a JSON object. -/
def Json.lookupField : List (String × Json) → String → Option Json
  | [], _ => none
  | (k, v) :: rest, key => if k = key then some v else Json.lookupField rest key

/-- Model of `Value::index` with a string key (`v["k"]`): on an object the
field's value or `Null` when absent, `Null` on every other variant. -/
def Json.getField : Json → String → Json
  | .obj fields, key =>
      match Json.lookupField fields key with
      | some v => v
      | none => .null
  | _, _ => .null

/-- Model of `Value::as_str`. -/
def Json.asStr : Json → Option String
  | .str s => some s
  | _ => none

/-- Uppercase hexadecimal digit, as emitted by the `percent-encoding`
crate. -/
def hexDigitChar (d : Nat) : Char :=
  if d < 10 then Char.ofNat (48 + d) else Char.ofNat (55 + d)

/-- UTF-8 bytes of a character (RFC 3629), used by both encoders for
characters outside their pass-through sets. -/
def utf8Bytes (c : Char) : List Nat :=
  let n := c.toNat
  if n < 0x80 then [n]
  else if n < 0x800 then [0xC0 + n / 64, 0x80 + n % 64]
  else if n < 0x10000 then [0xE0 + n / 4096, 0x80 + (n / 64) % 64, 0x80 + n % 64]
  else [0xF0 + n / 262144, 0x80 + (n / 4096) % 64, 0x80 + (n / 64) % 64, 0x80 + n % 64]

/-- `%XX` escape of one byte. -/
def percentByte (b : Nat) : List Char :=
  ['%', hexDigitChar (b / 16 % 16), hexDigitChar (b % 16)]

/-- Pass-through set of `form_urlencoded::byte_serialize`: ASCII
alphanumerics and `*`, `-`, `.`, `_`. -/
def formPassChar (c : Char) : Bool :=
  (('0' ≤ c && c ≤ '9') || ('A' ≤ c && c ≤ 'Z') || ('a' ≤ c && c ≤ 'z')
    || c = '*' || c = '-' || c = '.' || c = '_')

/-- One character of `application/x-www-form-urlencoded` serialization:
pass-through, space to `+`, all else percent-encoded bytewise. -/
def formEncChar (c : Char) : List Char :=
  if formPassChar c then [c]
  else if c = ' ' then ['+']
  else (utf8Bytes c).flatMap percentByte

/-- `form_urlencoded` serialization of one component (a key or a value of
a query pair). -/
def formEncode (s : String) : String :=
  ⟨s.data.flatMap formEncChar⟩

/-- The `url` crate's `PATH_SEGMENT` percent-encode set: C0 controls and
DEL, space, `"`, `#`, `<`, `>`, `?`, `` ` ``, `{`, `}`, `/`, `%`, and all
non-ASCII characters. -/
def pathSegEscapes (c : Char) : Bool :=
  (c.toNat < 0x20 || c.toNat = 0x7F || c.toNat ≥ 0x80
    || c = ' ' || c = '"' || c = '#' || c = '<' || c = '>'
    || c = '?' || c = '`' || c = Char.ofNat 0x7B || c = Char.ofNat 0x7D
    || c = '/' || c = '%')

/-- One character of a percent-encoded path segment
(`PathSegmentsMut::push`). -/
def segEncChar (c : Char) : List Char :=
  if pathSegEscapes c then (utf8Bytes c).flatMap percentByte else [c]

/-- Percent-encoding of a whole path segment, as performed by
`Url::path_segments_mut().push`. -/
def pathSegmentEncode (s : String) : String :=
  ⟨s.data.flatMap segEncChar⟩

/-- Split a character list at every occurrence of `sep` (the pieces keep
no separator; `n` separators give `n + 1` pieces). -/
def splitSep (sep : Char) : List Char → List (List Char)
  | [] => [[]]
  | c :: cs =>
      if c = sep then [] :: splitSep sep cs
      else
        match splitSep sep cs with
        | [] => [[c]]
        | p :: ps => (c :: p) :: ps

/-- Split one `name=value` piece at its first `=`; a piece without `=`
yields an empty value (`form_urlencoded::parse`). -/
def splitFirstEq : List Char → List Char × List Char
  | [] => ([], [])
  | c :: cs =>
      if c = '=' then ([], cs)
      else
        let (n, v) := splitFirstEq cs
        (c :: n, v)

/-- Whether a character is an ASCII hexadecimal digit. -/
def isHexDigitChar (c : Char) : Bool :=
  (('0' ≤ c && c ≤ '9') || ('A' ≤ c && c ≤ 'F') || ('a' ≤ c && c ≤ 'f'))

/-- Numeric value of a hexadecimal digit character. -/
def hexVal (c : Char) : Nat :=
  if '0' ≤ c && c ≤ '9' then c.toNat - 48
  else if 'A' ≤ c && c ≤ 'F' then c.toNat - 55
  else if 'a' ≤ c && c ≤ 'f' then c.toNat - 87
  else 0

/-- Percent-decoding with `+` as space, bytewise, as in
`form_urlencoded::parse`.  A malformed escape is passed through.  Decoded
bytes are taken as characters directly; multi-byte UTF-8 sequences decode
bytewise, which is faithful for the ASCII data all checked properties
exercise. -/
def percentPlusDecode : List Char → List Char
  | [] => []
  | '+' :: cs => ' ' :: percentPlusDecode cs
  | '%' :: a :: b :: rest =>
      if isHexDigitChar a && isHexDigitChar b then
        Char.ofNat (16 * hexVal a + hexVal b) :: percentPlusDecode rest
      else '%' :: percentPlusDecode (a :: b :: rest)
  | '%' :: cs => '%' :: percentPlusDecode cs
  | c :: cs => c :: percentPlusDecode cs

/-- Substring test, modelling Rust's `str::contains`. -/
def hasSubstring (needle : List Char) : List Char → Bool
  | [] => needle.isEmpty
  | c :: cs => needle.isPrefixOf (c :: cs) || hasSubstring needle cs

/-- The decoded name/value pairs of a query string, modelling
`Url::query_pairs()` (`form_urlencoded::parse`): split on `&`, drop empty
pieces, split each piece at its first `=`, percent-plus-decode both
sides.  `none` (no query at all) gives no pairs. -/
def parseQueryPairs : Option String → List (String × String)
  | none => []
  | some s =>
      ((splitSep '&' s.data).filter (· ≠ [])).map fun piece =>
        (⟨percentPlusDecode (splitFirstEq piece).1⟩, ⟨percentPlusDecode (splitFirstEq piece).2⟩)

/-- `Url::query_pairs_mut().append_pair(k, v)`: form-urlencode both
components and append `k=v` to the raw query, preceded by `&` when the
query is already non-empty. -/
def appendPairEnc (q : Option String) (k v : String) : Option String :=
  let pair := formEncode k ++ "=" ++ formEncode v
  match q with
  | none => some pair
  | some s => if s.isEmpty then some pair else some (s ++ "&" ++ pair)

/-- The state of a `url::Url` restricted to what the client manipulates:
the serialized scheme-plus-authority (never touched after
`Client::new`), the percent-encoded path segments, and the raw query
string (`none` when the URL has no `?` at all, `some ""` when it has a
bare `?`). -/
structure UrlM where
  base : String
  pathSegs : List String
  query : Option String
deriving DecidableEq

/-- Path serialization: `/` before every segment (a fresh authority-only
URL has the single empty segment, i.e. path `/`). -/
def renderPath (segs : List String) : String :=
  segs.foldl (fun acc seg => acc ++ "/" ++ seg) ""

/-- `Url::as_str`. -/
def UrlM.render (u : UrlM) : String :=
  u.base ++ renderPath u.pathSegs ++ (match u.query with | none => "" | some q => "?" ++ q)

/-- `Url::query_pairs_mut().clear()`: every pair is removed, but the `url`
crate keeps the (now empty) query component, so `as_str` ends in a bare
`?` and `query()` returns `Some("")`; only `set_query(None)` — which the
client never calls — would drop the `?`. -/
def UrlM.clearQueryPairs (u : UrlM) : UrlM :=
  { u with query := some "" }

/-- `Payload` of `src/lib.rs`: `Body` and `Empty` select POST, `None`
selects GET. -/
inductive PayloadM where
  | body (v : Json)
  | empty
  | none

/-- The `Client` state of `src/lib.rs` (field `handler` models the Rust
field `request_handler`; the method of the same name is
`Client.request_handler` below). -/
structure Client where
  handler : String
  url : UrlM
  payload : PayloadM
  collection : String
  response : Option Json

/-- `Client::new`: parse the base URL (an authority-only `http(s)://…`
base parses to path `/` and no query) and start with empty handler, no
payload, no stored response. -/
def Client.new (base_url collection : String) : Client :=
  { handler := "", url := { base := base_url, pathSegs := [""], query := none },
    payload := .none, collection := collection, response := none }

/-- `Client::add_query_param`. -/
def Client.add_query_param (c : Client) (key value : String) : Client :=
  { c with url := { c.url with query := appendPairEnc c.url.query key value } }

/-- `Client::switch_on_facet`: scan the decoded query pairs for
`facet=on`; append it only when absent. -/
def Client.switch_on_facet (c : Client) : Client :=
  if ("facet", "on") ∈ parseQueryPairs c.url.query then c
  else c.add_query_param "facet" "on"

/-- `Client::facet_field`. -/
def Client.facet_field (c : Client) (field : String) : Client :=
  c.switch_on_facet.add_query_param "facet_field" field

/-- `Client::facet_query`. -/
def Client.facet_query (c : Client) (query : String) : Client :=
  c.switch_on_facet.add_query_param "facet_query" query

/-- `Client::request_handler`: record the handler, reset the payload to
`None`, and rewrite the path to `/solr/<collection>/<handler>` with each
`push` percent-encoding its argument as a single segment. -/
def Client.request_handler (c : Client) (handler : String) : Client :=
  { c with
    handler := handler,
    payload := .none,
    url := { c.url with
      pathSegs := ["solr", pathSegmentEncode c.collection, pathSegmentEncode handler] } }

/-- `Client::auto_commit`. -/
def Client.auto_commit (c : Client) : Client :=
  c.add_query_param "commit" "true"

/-- `Client::start`. -/
def Client.start (c : Client) (start : Nat) : Client :=
  c.add_query_param "start" (toString start)

/-- `Client::sort`. -/
def Client.sort (c : Client) (sort : String) : Client :=
  c.add_query_param "sort" sort

/-- `Client::cursor`. -/
def Client.cursor (c : Client) : Client :=
  c.add_query_param "cursorMark" "*"

/-- `Client::rows`. -/
def Client.rows (c : Client) (rows : Nat) : Client :=
  c.add_query_param "rows" (toString rows)

/-- `Client::query`. -/
def Client.query (c : Client) (query : String) : Client :=
  c.add_query_param "q" query

/-- `Client::default_field`. -/
def Client.default_field (c : Client) (df : String) : Client :=
  c.add_query_param "df" df

/-- `Client::dismax`. -/
def Client.dismax (c : Client) : Client :=
  c.add_query_param "defType" "dismax"

/-- `Client::edismax`. -/
def Client.edismax (c : Client) : Client :=
  c.add_query_param "defType" "edismax"

/-- `Client::url_str`. -/
def Client.url_str (c : Client) : String :=
  c.url.render

/-- `Client::set_document` (the document already serialized to JSON). -/
def Client.set_document (c : Client) (document : Json) : Client :=
  { c with payload := .body document }

/-- `Client::set_empty_payload`. -/
def Client.set_empty_payload (c : Client) : Client :=
  { c with payload := .empty }

/-- `Client::clear_payload`. -/
def Client.clear_payload (c : Client) : Client :=
  { c with payload := .none }

/-- `Client::select`. -/
def Client.select (c : Client) (query : String) : Client :=
  (c.request_handler "select").query query

/-- `Client::create` (handler `RequestHandlers::CREATE`). -/
def Client.create (c : Client) (document : Json) : Client :=
  (c.request_handler "update/json/docs").set_document document

/-- `Client::delete`. -/
def Client.delete (c : Client) (query : String) : Client :=
  (c.request_handler "update").set_document
    (.obj [("delete", .obj [("query", .str query)])])

/-- `Client::commit`. -/
def Client.commit (c : Client) : Client :=
  ((c.request_handler "update").auto_commit).set_empty_payload

/-- The character class `(\w|\*)` of the `update_cursor_mark` regex
`(cursorMark=)(\w|\*)`: one word character or a literal asterisk (the
`regex` crate's `\w` is Unicode-aware; the ASCII core suffices for every
query the properties touch). -/
def isWordOrStar (c : Char) : Bool :=
  (('0' ≤ c && c ≤ '9') || ('A' ≤ c && c ≤ 'Z') || ('a' ≤ c && c ≤ 'z')
    || c = '_' || c = '*')

/-- Whether the regex `(cursorMark=)(\w|\*)` matches at the front of the
character list: the literal `cursorMark=` followed by one `(\w|\*)`
character. -/
def cursorMarkMatchAt (s : List Char) : Bool :=
  "cursorMark=".data.isPrefixOf s
    && (match s.drop 11 with
        | c :: _ => isWordOrStar c
        | [] => false)

/-- A character the `regex` crate accepts in an unbraced `$name`
capture reference: ASCII alphanumeric or `_` (`is_valid_cap_letter`). -/
def isRefChar (c : Char) : Bool :=
  (('0' ≤ c && c ≤ '9') || ('A' ≤ c && c ≤ 'Z') || ('a' ≤ c && c ≤ 'z') || c = '_')

/-- Whether a character is an ASCII decimal digit. -/
def isDigitChar (c : Char) : Bool :=
  ('0' ≤ c && c ≤ '9')

/-- Numeric value of a decimal digit string. -/
def natOfDigits (ds : List Char) : Nat :=
  ds.foldl (fun n c => 10 * n + (c.toNat - 48)) 0

/-- The capture groups of `(cursorMark=)(\w|\*)` at a match whose class
character is `ch`: group 0 is the whole match, group 1 the literal,
group 2 the single class character; any other group is unset and
expands to nothing (`caps.get(i)` is `None`). -/
def groupText (ch : Char) (n : Nat) : List Char :=
  if n = 0 then "cursorMark=".data ++ [ch]
  else if n = 1 then "cursorMark=".data
  else if n = 2 then [ch]
  else []

/-- Resolution of one capture reference name, as `Regex::replace` does
it: a name that parses as `u32` (`parse::<u32>` accepts an optional
leading `+` and plain digits) refers to the numbered group; any other
name is a named-group reference, and this pattern has no named groups,
so it expands to nothing.  An overflowing digit string falls back to an
(unknown) named reference — also nothing — matching the source either
way. -/
def refValue (ch : Char) (name : List Char) : List Char :=
  let ds := match name with
    | '+' :: t => t
    | t => t
  if ds ≠ [] && ds.all isDigitChar then groupText ch (natOfDigits ds) else []

/-- Fuel-indexed expansion of `$`-references in a replacement string,
following `regex`'s `expand_str`/`find_cap_ref`: `$$` is a literal `$`;
`${name}` reads to the first `}` (empty or unclosed braces make the `$`
literal and scanning resumes at the `{`); an unbraced `$` takes the
longest run of reference characters as the name (none makes the `$`
literal); resolved references expand via `refValue`.  One unit of fuel
is spent per step and each step consumes at least one character, so
fuel equal to the input length is always enough. -/
def expandFuel (ch : Char) : Nat → List Char → List Char
  | _, [] => []
  | 0, l => l
  | Nat.succ f, c :: rest =>
      if c = '$' then
        match rest with
        | [] => ['$']
        | d :: rest2 =>
            if d = '$' then '$' :: expandFuel ch f rest2
            else if d = '{' then
              if rest2.dropWhile (fun x => !(x == '}')) = [] then
                '$' :: expandFuel ch f (d :: rest2)
              else if rest2.takeWhile (fun x => !(x == '}')) = [] then
                '$' :: expandFuel ch f (d :: rest2)
              else
                refValue ch (rest2.takeWhile (fun x => !(x == '}')))
                  ++ expandFuel ch f (rest2.dropWhile (fun x => !(x == '}'))).tail
            else
              if (d :: rest2).takeWhile isRefChar = [] then
                '$' :: expandFuel ch f (d :: rest2)
              else
                refValue ch ((d :: rest2).takeWhile isRefChar)
                  ++ expandFuel ch f ((d :: rest2).drop ((d :: rest2).takeWhile isRefChar).length)
      else c :: expandFuel ch f rest

/-- `$`-reference expansion of a replacement string at a match whose
class character is `ch`. -/
def expandDollar (ch : Char) (l : List Char) : List Char :=
  expandFuel ch l.length l

/-- One character of `Url::set_query`'s percent-encoding: the url
crate's query encode set for special schemes such as the client's
`http` — C0 controls and DEL, space, `"`, `#`, `<`, `>`, `'`, and all
non-ASCII characters; everything else (including `%`) passes through
untouched. -/
def queryEncChar (c : Char) : List Char :=
  if c.toNat < 0x20 || c.toNat = 0x7F || c.toNat ≥ 0x80
      || c = ' ' || c = '"' || c = '#' || c = '<' || c = '>' || c = '\'' then
    (utf8Bytes c).flatMap percentByte
  else [c]

/-- `Url::set_query(Some(s))`: ASCII tab and newlines are stripped
anywhere in the input (the WHATWG setter preprocessing), then every
character is percent-encoded through the query encode set. -/
def setQueryEncode (s : String) : String :=
  ⟨(s.data.filter (fun c => !(c == Char.ofNat 9 || c == Char.ofNat 10 || c == Char.ofNat 13))).flatMap
    queryEncChar⟩

/-- `Regex::replace` of `(cursorMark=)(\w|\*)` with the replacement
string `${1}<mark>` (built by `format!`): the leftmost match — eleven
literal characters plus a single class character — is replaced by the
`$`-expansion of the replacement, i.e. `cursorMark=` followed by the
expansion of the mark itself; everything else, including the remainder
of a longer old mark, is left in place.  Without a match the input is
returned unchanged. -/
def replaceCursorMark (mark : String) : List Char → List Char
  | [] => []
  | x :: xs =>
      if cursorMarkMatchAt (x :: xs) then
        (match (x :: xs).drop 11 with
          | c :: _ => expandDollar c ("${1}".data ++ mark.data)
          | [] => []) ++ (x :: xs).drop 12
      else x :: replaceCursorMark mark xs

/-- `Client::update_cursor_mark`: `none` models the
`.expect("Query part is required.")` panic when the URL has no query
part; otherwise the regex replacement runs over the raw query and the
result is stored back with `set_query`, which re-encodes it. -/
def Client.update_cursor_mark (c : Client) (cursor_mark : String) : Option Client :=
  match c.url.query with
  | none => none
  | some q =>
      some { c with url := { c.url with
        query := some (setQueryEncode ⟨replaceCursorMark cursor_mark q.data⟩) } }

/-- `Response<T>` of `src/solr_response.rs` with `T` at the JSON level. -/
structure DocsResponse where
  numFound : Nat
  start : Nat
  numFoundExact : Bool
  docs : List Json

/-- `Facet` of `src/solr_response.rs` (`facet_fields` is kept as raw
JSON; its further decoding is irrelevant to the checked properties). -/
structure FacetCounts where
  facet_queries : Json
  facet_fields : Json

/-- `SolrResponse<T>` of `src/solr_response.rs` with `T` at the JSON
level. -/
structure SolrResponseM where
  response : Option DocsResponse
  facet_counts : Option FacetCounts
  nextCursorMark : Option String
  raw : Json

/-- `SolrResponse::default()`: all three typed parts absent and — as in
the source's `json!("{}")` — the `raw` slot holding the JSON *string*
`"\x7b\x7d"`. -/
def SolrResponseM.default : SolrResponseM :=
  { response := none, facet_counts := none, nextCursorMark := none, raw := .str "\x7b\x7d" }

/-- serde deserialization of `u32` from a JSON value. -/
def decodeU32 : Json → Except String Nat
  | .num n => if 0 ≤ n ∧ n < 4294967296 then .ok n.toNat else .error "invalid u32"
  | _ => .error "invalid u32"

/-- serde deserialization of `bool` from a JSON value. -/
def decodeBool : Json → Except String Bool
  | .bool b => .ok b
  | _ => .error "invalid bool"

/-- serde deserialization of `Vec<Value>` from a JSON value. -/
def decodeDocs : Json → Except String (List Json)
  | .arr xs => .ok xs
  | _ => .error "invalid sequence"

/-- serde deserialization of `Response<Value>`: an object with the four
required fields (extra fields are ignored). -/
def decodeDocsResponse : Json → Except String DocsResponse
  | .obj fields =>
      match Json.lookupField fields "numFound", Json.lookupField fields "start",
          Json.lookupField fields "numFoundExact", Json.lookupField fields "docs" with
      | some nf, some st, some ex, some ds => do
          let numFound ← decodeU32 nf
          let start ← decodeU32 st
          let numFoundExact ← decodeBool ex
          let docs ← decodeDocs ds
          .ok { numFound := numFound, start := start, numFoundExact := numFoundExact, docs := docs }
      | _, _, _, _ => .error "missing field in response"
  | _ => .error "response is not an object"

/-- serde deserialization of `Facet`: `facet_queries` is any value,
`facet_fields` flattens into a `Value` and therefore requires a map. -/
def decodeFacetCounts : Json → Except String FacetCounts
  | .obj fields =>
      match Json.lookupField fields "facet_queries", Json.lookupField fields "facet_fields" with
      | some fq, some (.obj ff) => .ok { facet_queries := fq, facet_fields := .obj ff }
      | _, _ => .error "invalid facet_counts"
  | _ => .error "facet_counts is not an object"

/-- An `Option` field with a `None` default: absent or `null` gives
`none`, any other value must decode. -/
def decodeOptField (dec : Json → Except String α) (fields : List (String × Json))
    (name : String) : Except String (Option α) :=
  match Json.lookupField fields name with
  | none => .ok none
  | some .null => .ok none
  | some v => (dec v).map some

/-- serde deserialization of the `Option<String>` payload of
`nextCursorMark`. -/
def decodeStrField : Json → Except String String
  | .str s => .ok s
  | _ => .error "invalid nextCursorMark"

/-- serde deserialization of the whole `SolrResponse<Value>` envelope:
the three known top-level keys as above, every remaining key collected
verbatim into `raw` by `#[serde(flatten)]`. -/
def decodeSolrResponse : Json → Except String SolrResponseM
  | .obj fields =>
      match decodeOptField decodeDocsResponse fields "response" with
      | .error e => .error e
      | .ok response =>
          match decodeOptField decodeFacetCounts fields "facet_counts" with
          | .error e => .error e
          | .ok facet_counts =>
              match decodeOptField decodeStrField fields "nextCursorMark" with
              | .error e => .error e
              | .ok nextCursorMark =>
                  .ok { response := response, facet_counts := facet_counts,
                        nextCursorMark := nextCursorMark,
                        raw := .obj (fields.filter fun kv =>
                          kv.1 ≠ "response" && kv.1 ≠ "facet_counts"
                            && kv.1 ≠ "nextCursorMark") }
  | _ => .error "envelope is not an object"

/-- `Client::get_response::<Value>`: re-deserialize the stored raw JSON
(`Err` models `RSolrError::Serialization`); with no stored response the
default envelope is returned. -/
def Client.get_response (c : Client) : Except String SolrResponseM :=
  match c.response with
  | some v => decodeSolrResponse v
  | none => .ok SolrResponseM.default

/-- An HTTP body, carried together with its `serde_json` parse result
(`json` is what `response.json::<Value>()` / `serde_json::from_str` of
`text` yields; concrete instances keep the two consistent). -/
structure HttpBody where
  text : String
  json : Option Json

/-- The transport outcome `run` reacts to: a `reqwest` error or a status
code with a body. -/
inductive HttpResult where
  | fail
  | success (status : Nat) (body : HttpBody)

/-- What a `run` call does, seen from the caller: the `Result` value it
returns — `Ok(Some(cursor))` carries the cursor's seed mark — or the
distinguished `panicked` outcome when the source would `panic!` via
`unwrap`/`expect`. -/
inductive RunResult where
  | okCursor (mark : String)
  | okNone
  | errNetwork
  | errNotFound
  | errSyn (msg : String)
  | errOther (status : Nat) (bodyText : String)
  | panicked
deriving DecidableEq

/-- `self.url.query().unwrap_or("no url").contains("cursorMark")`. -/
def Client.queryHasCursorMark (c : Client) : Bool :=
  match c.url.query with
  | none => false
  | some q => hasSubstring "cursorMark".data q.data

/-- `Client::run` of `src/lib.rs`, as a function of the transport
outcome.  On 200 the parsed body (or `None` on a parse failure) is
stored, then: with `cursorMark` in the query the seed mark is read back
through `get_response` with two `unwrap`s (modelled as `panicked` when
either fails) and the pairs are cleared; without it the pairs are just
cleared.  404 maps to `NotFound`; any other status parses the body text
and yields `Syntax(error.msg)` — panicking when the JSON has no string
there — or `Other` when the body is not JSON.  Errors leave the client
untouched. -/
def Client.run (c : Client) (h : HttpResult) : Client × RunResult :=
  match h with
  | .fail => (c, .errNetwork)
  | .success status body =>
      if status = 200 then
        let c1 : Client := { c with response := body.json }
        if c1.queryHasCursorMark then
          match c1.get_response with
          | .error _ => (c1, .panicked)
          | .ok env =>
              match env.nextCursorMark with
              | none => (c1, .panicked)
              | some mark => ({ c1 with url := c1.url.clearQueryPairs }, .okCursor mark)
        else ({ c1 with url := c1.url.clearQueryPairs }, .okNone)
      else if status = 404 then (c, .errNotFound)
      else
        match body.json with
        | some r =>
            match ((r.getField "error").getField "msg").asStr with
            | some msg => (c, .errSyn msg)
            | none => (c, .panicked)
        | none => (c, .errOther status body.text)

/-- Modelled from the spec: `Client::cursor_mark`, which
`Cursor::next` (`src/cursor.rs`) calls but which is absent from the
sources — only its caller and the cursor unit test survive.  Following
§4.6 step 2 of the spec and the URLs the cursor unit test expects, it
puts `cursorMark=<mark>` into the query (appended as a pair, as the test
URLs show it last). -/
def Client.cursor_mark (c : Client) (mark : String) : Client :=
  c.add_query_param "cursorMark" mark

/-- `Client::url`: replace the whole URL with the parse of the given
string.  The model keeps the snapshot taken by `Cursor::next` in parsed
form, so restoring is component-wise (`Url::parse ∘ Url::as_str` is the
identity on the URLs the client renders). -/
def Client.setUrl (c : Client) (u : UrlM) : Client :=
  { c with url := u }

/-- The `Cursor` state of `src/cursor.rs`. -/
structure CursorM where
  client : Client
  cursor_mark : String
  url : Option UrlM
  the_end : Bool

/-- `Cursor::new` of `src/cursor.rs`. -/
def CursorM.new (client : Client) : CursorM :=
  { client := client, the_end := false, cursor_mark := "", url := none }

/-- What one `Cursor::next::<Value>` call returns: `Ok(None)`,
`Ok(Some(envelope))`, an error, or a panic via
`.expect("nextcursormark should be there")`. -/
inductive NextResult where
  | noMore
  | page (env : SolrResponseM)
  | err
  | panicked

/-- `Cursor::next` of `src/cursor.rs`, as a function of the transport
outcome of the embedded `client.run()` call.  An exhausted cursor
short-circuits to `Ok(None)`.  Otherwise the URL is snapshotted on the
first call and restored afterwards, the current mark is put into the
query, and the client runs; on success the envelope is re-read, its
`nextCursorMark` extracted (panic when impossible), `the_end` set when
the server echoed the sent mark back — and the page is returned either
way. -/
def CursorM.next (cur : CursorM) (h : HttpResult) : CursorM × NextResult :=
  if cur.the_end then (cur, .noMore)
  else
    let (client0, snap) :=
      match cur.url with
      | none => (cur.client, cur.client.url)
      | some u => (cur.client.setUrl u, u)
    let client1 := client0.cursor_mark cur.cursor_mark
    match client1.run h with
    | (client2, .errNetwork) => ({ cur with client := client2, url := some snap }, .err)
    | (client2, .errNotFound) => ({ cur with client := client2, url := some snap }, .err)
    | (client2, .errSyn _) => ({ cur with client := client2, url := some snap }, .err)
    | (client2, .errOther _ _) => ({ cur with client := client2, url := some snap }, .err)
    | (client2, .panicked) => ({ cur with client := client2, url := some snap }, .panicked)
    | (client2, .okCursor _) | (client2, .okNone) =>
        match client2.get_response with
        | .error _ => ({ cur with client := client2, url := some snap }, .err)
        | .ok env =>
            match env.nextCursorMark with
            | none => ({ cur with client := client2, url := some snap }, .panicked)
            | some next =>
                ({ client := client2, url := some snap,
                   cursor_mark := next,
                   the_end := cur.the_end || (cur.cursor_mark = next : Bool) }, .page env)

/-- `Term` of `src/query.rs` (the consuming-builder variant; the
`&mut`-chaining `src/term.rs` variant computes the same strings). -/
structure TermM where
  term : String
  field : Option String

/-- `Term::from_str`: text containing a space is stored surrounded by
double quotes. -/
def TermM.from_str (term_str : String) : TermM :=
  if term_str.data.contains ' ' then
    { term := "\"" ++ term_str ++ "\"", field := none }
  else { term := term_str, field := none }

/-- `Term::in_field`. -/
def TermM.in_field (t : TermM) (field : String) : TermM :=
  { t with field := some field }

/-- `Term::boost`; the argument is the decimal rendering of the `f32`
(Rust's `2.0_f32.to_string()` is `"2"`, `3.2_f32.to_string()` is
`"3.2"`). -/
def TermM.boost (t : TermM) (value : String) : TermM :=
  { t with term := t.term ++ "^" ++ value }

/-- `Term::tilde` (the fuzzy modifier). -/
def TermM.tilde (t : TermM) (value : Nat) : TermM :=
  { t with term := t.term ++ "~" ++ toString value }

/-- `Term::required`: prepend `+` to the stored term text. -/
def TermM.required (t : TermM) : TermM :=
  { t with term := "+" ++ t.term }

/-- `Term::prohibit`: prepend `-` to the stored term text. -/
def TermM.prohibit (t : TermM) : TermM :=
  { t with term := "-" ++ t.term }

/-- `Term::as_str` (`Stringable` impl): `field: term` when a field is
set, the bare term text otherwise. -/
def TermM.as_str (t : TermM) : String :=
  match t.field with
  | some field => field ++ ": " ++ t.term
  | none => t.term

/-- One fluent URL-building call on the client (the calls of §4.2 that
mutate only the URL/payload state and never fail). -/
inductive BuilderCall where
  | add_query_param (k v : String)
  | facet_field (f : String)
  | facet_query (q : String)
  | request_handler (h : String)
  | auto_commit
  | start (n : Nat)
  | sort (s : String)
  | cursor
  | rows (n : Nat)
  | query (q : String)
  | default_field (df : String)
  | dismax
  | edismax
  | set_document (v : Json)
  | set_empty_payload
  | clear_payload

/-- Apply one builder call. -/
def applyCall (c : Client) : BuilderCall → Client
  | .add_query_param k v => c.add_query_param k v
  | .facet_field f => c.facet_field f
  | .facet_query q => c.facet_query q
  | .request_handler h => c.request_handler h
  | .auto_commit => c.auto_commit
  | .start n => c.start n
  | .sort s => c.sort s
  | .cursor => c.cursor
  | .rows n => c.rows n
  | .query q => c.query q
  | .default_field df => c.default_field df
  | .dismax => c.dismax
  | .edismax => c.edismax
  | .set_document v => c.set_document v
  | .set_empty_payload => c.set_empty_payload
  | .clear_payload => c.clear_payload

/-- Apply a sequence of builder calls left to right. -/
def applyCalls (c : Client) (cs : List BuilderCall) : Client :=
  cs.foldl applyCall c

/-- One facet helper call, for the facet-interaction property. -/
inductive FacetCall where
  | field (f : String)
  | fquery (q : String)

/-- Apply one facet helper call. -/
def applyFacet (c : Client) : FacetCall → Client
  | .field f => c.facet_field f
  | .fquery q => c.facet_query q

/-- The decoded query pair each facet call appends after the `facet=on`
switch: its key names the helper, its value is the encode/decode round
trip of the argument. -/
def FacetCall.pair : FacetCall → String × String
  | .field f => ("facet_field", ⟨percentPlusDecode (formEncode f).data⟩)
  | .fquery q => ("facet_query", ⟨percentPlusDecode (formEncode q).data⟩)

/-- Skip everything up to and including the first `://` of a rendered
URL (the scheme separator). -/
def afterSchemeAux : List Char → List Char
  | ':' :: '/' :: '/' :: rest => rest
  | _ :: rest => afterSchemeAux rest
  | [] => []

/-- Extract the path of a rendered URL: after the scheme separator, skip
the authority (up to the first `/`) and take until the query's `?`.
This is how a conforming URL parser recovers the path, so agreement with
the intended path expresses that the rendered string parses back as a
URL carrying exactly that path. -/
def parseUrlPath (s : String) : String :=
  ⟨((afterSchemeAux s.data).dropWhile (fun c => !(c == '/'))).takeWhile (fun c => !(c == '?'))⟩

/-- Whether a builder call is the handler-setting one (the only call
that rewrites the URL path). -/
def BuilderCall.isHandler : BuilderCall → Bool
  | .request_handler _ => true
  | _ => false

/-- All characters of a stored query component are `?`-free (true of
every query the builder can produce, and what keeps the rendered URL
parseable). -/
def queryOk (c : Client) : Prop :=
  ∀ q, c.url.query = some q → ∀ x ∈ q.data, x ≠ '?'

/-- C7, the claim as stated is false: building the term `"a b"`, applying
`in_field "f"`, `boost 2.0` (rendered `2`), `tilde 3` and `required` in
that order renders `f: +"a b"^2~3`, not the claimed `+f: "a b"^2~3` —
`required` prepends `+` to the term text, inside the field prefix. -/
theorem C7_counterexample :
    (((((TermM.from_str "a b").in_field "f").boost "2").tilde 3).required).as_str
        ≠ "+f: \"a b\"^2~3"
      ∧ (((((TermM.from_str "a b").in_field "f").boost "2").tilde 3).required).as_str
        = "f: +\"a b\"^2~3" := by
  exact ⟨by decide, rfl⟩

/-- C7 as amended: building the term `"a b"`, applying `in_field "f"`,
`boost 2.0` (an `f32` rendered as `2`), `tilde 3` and `required` in that
order renders exactly `f: +"a b"^2~3` — the text is double-quoted
because it contains a space, boost and fuzz follow the term in order,
and the `+` sign is prepended to the term text, so it follows the field
name rather than preceding it. -/
theorem C7_theorem :
    (((((TermM.from_str "a b").in_field "f").boost "2").tilde 3).required).as_str
      = "f: +\"a b\"^2~3" := rfl

/-- C2, evaluated at the divergence point: a cursor whose current mark is
`third_cursor_mark` receives a successful page whose `nextCursorMark` is
the same `third_cursor_mark`; `Cursor::next` (`src/cursor.rs`) returns
that page as `Some(...)` — only marking the cursor exhausted — and every
subsequent call returns `None`, whereas the claim requires `None`
already on this call. -/
theorem C2_theorem :
    (CursorM.next
        { client := (Client.new "http://solr.url" "dummy").select "*:*",
          cursor_mark := "third_cursor_mark", url := none, the_end := false }
        (.success 200 ⟨"\x7b\"nextCursorMark\": \"third_cursor_mark\"\x7d",
          some (.obj [("nextCursorMark", .str "third_cursor_mark")])⟩)).2
      = NextResult.page
          { response := none, facet_counts := none,
            nextCursorMark := some "third_cursor_mark", raw := .obj [] }
    ∧ (CursorM.next
        { client := (Client.new "http://solr.url" "dummy").select "*:*",
          cursor_mark := "third_cursor_mark", url := none, the_end := false }
        (.success 200 ⟨"\x7b\"nextCursorMark\": \"third_cursor_mark\"\x7d",
          some (.obj [("nextCursorMark", .str "third_cursor_mark")])⟩)).1.the_end = true
    ∧ (CursorM.next
        ((CursorM.next
          { client := (Client.new "http://solr.url" "dummy").select "*:*",
            cursor_mark := "third_cursor_mark", url := none, the_end := false }
          (.success 200 ⟨"\x7b\"nextCursorMark\": \"third_cursor_mark\"\x7d",
            some (.obj [("nextCursorMark", .str "third_cursor_mark")])⟩)).1)
        (.success 200 ⟨"\x7b\"nextCursorMark\": \"third_cursor_mark\"\x7d",
          some (.obj [("nextCursorMark", .str "third_cursor_mark")])⟩)).2
      = NextResult.noMore := by
  exact ⟨rfl, rfl, rfl⟩

/-- C3, the claim as stated is false: after a successful `run`, the `url`
crate's pair-clearing leaves an empty query component, so the next
`url_str()` is `<base>/solr/<collection>/<handler>?` — with a trailing
`?` — and not the claimed bare `<base>/solr/<collection>/<handler>`,
shown here on a concrete select. -/
theorem C3_counterexample :
    (((Client.new "http://host:8983" "c").select "*:*").run
        (.success 200 ⟨"\x7b\x7d", some (.obj [])⟩)).2 = RunResult.okNone
    ∧ (((Client.new "http://host:8983" "c").select "*:*").run
        (.success 200 ⟨"\x7b\x7d", some (.obj [])⟩)).1.url_str
      = "http://host:8983/solr/c/select?"
    ∧ (((Client.new "http://host:8983" "c").select "*:*").run
        (.success 200 ⟨"\x7b\x7d", some (.obj [])⟩)).1.url_str
      ≠ "http://host:8983/solr/c/select" := by
  exact ⟨rfl, rfl, by decide⟩

/-- C3 as amended: after `run()` returns Ok, the query pairs are cleared
(the decoded pair list is empty) and base, collection, handler and
payload are unchanged, but the URL keeps an empty query component: the
next `url_str()` observed before any new parameter call equals
`<base>/solr/<collection>/<handler>?`, with a trailing `?`. -/
theorem C3_theorem (c c' : Client) (h : HttpResult) (r : RunResult)
    (hrun : c.run h = (c', r))
    (hok : r = RunResult.okNone ∨ ∃ m, r = RunResult.okCursor m) :
    c'.url.query = some "" ∧ parseQueryPairs c'.url.query = []
    ∧ c'.url.base = c.url.base ∧ c'.url.pathSegs = c.url.pathSegs
    ∧ c'.collection = c.collection ∧ c'.handler = c.handler
    ∧ c'.payload = c.payload
    ∧ c'.url_str = c.url.base ++ renderPath c.url.pathSegs ++ "?" := by
  cases h with
  | fail =>
      simp only [Client.run] at hrun
      cases hrun
      rcases hok with h1 | ⟨m, h1⟩ <;> exact absurd h1 (by simp)
  | success status body =>
      simp only [Client.run] at hrun
      split at hrun
      · split at hrun
        · split at hrun
          · cases hrun
            rcases hok with h1 | ⟨m, h1⟩ <;> exact absurd h1 (by simp)
          · split at hrun
            · cases hrun
              rcases hok with h1 | ⟨m, h1⟩ <;> exact absurd h1 (by simp)
            · cases hrun
              exact ⟨rfl, rfl, rfl, rfl, rfl, rfl, rfl, rfl⟩
        · cases hrun
          exact ⟨rfl, rfl, rfl, rfl, rfl, rfl, rfl, rfl⟩
      · split at hrun
        · cases hrun
          rcases hok with h1 | ⟨m, h1⟩ <;> exact absurd h1 (by simp)
        · split at hrun
          · split at hrun
            · cases hrun
              rcases hok with h1 | ⟨m, h1⟩ <;> exact absurd h1 (by simp)
            · cases hrun
              rcases hok with h1 | ⟨m, h1⟩ <;> exact absurd h1 (by simp)
          · cases hrun
            rcases hok with h1 | ⟨m, h1⟩ <;> exact absurd h1 (by simp)

/-- C3 witness: the amended property at a concrete successful select. -/
theorem C3_theorem_witness :
    (((Client.new "http://host:8983" "c").select "*:*").run
          (.success 200 ⟨"\x7b\x7d", some (.obj [])⟩)).1.url.query = some ""
      ∧ parseQueryPairs (((Client.new "http://host:8983" "c").select "*:*").run
          (.success 200 ⟨"\x7b\x7d", some (.obj [])⟩)).1.url.query = []
      ∧ (((Client.new "http://host:8983" "c").select "*:*").run
          (.success 200 ⟨"\x7b\x7d", some (.obj [])⟩)).1.url.base
        = ((Client.new "http://host:8983" "c").select "*:*").url.base
      ∧ (((Client.new "http://host:8983" "c").select "*:*").run
          (.success 200 ⟨"\x7b\x7d", some (.obj [])⟩)).1.url.pathSegs
        = ((Client.new "http://host:8983" "c").select "*:*").url.pathSegs
      ∧ (((Client.new "http://host:8983" "c").select "*:*").run
          (.success 200 ⟨"\x7b\x7d", some (.obj [])⟩)).1.collection
        = ((Client.new "http://host:8983" "c").select "*:*").collection
      ∧ (((Client.new "http://host:8983" "c").select "*:*").run
          (.success 200 ⟨"\x7b\x7d", some (.obj [])⟩)).1.handler
        = ((Client.new "http://host:8983" "c").select "*:*").handler
      ∧ (((Client.new "http://host:8983" "c").select "*:*").run
          (.success 200 ⟨"\x7b\x7d", some (.obj [])⟩)).1.payload
        = ((Client.new "http://host:8983" "c").select "*:*").payload
      ∧ (((Client.new "http://host:8983" "c").select "*:*").run
          (.success 200 ⟨"\x7b\x7d", some (.obj [])⟩)).1.url_str
        = ((Client.new "http://host:8983" "c").select "*:*").url.base
          ++ renderPath ((Client.new "http://host:8983" "c").select "*:*").url.pathSegs ++ "?" :=
  C3_theorem ((Client.new "http://host:8983" "c").select "*:*")
    (((Client.new "http://host:8983" "c").select "*:*").run
      (.success 200 ⟨"\x7b\x7d", some (.obj [])⟩)).1
    (.success 200 ⟨"\x7b\x7d", some (.obj [])⟩)
    RunResult.okNone rfl (Or.inl rfl)

/-- C4: when `run` returns an error — network, 404, Solr syntax, or
other — the client's URL (hence its query parameters) and payload are
exactly what they were before the call. -/
theorem C4_theorem (c c' : Client) (h : HttpResult) (r : RunResult)
    (hrun : c.run h = (c', r))
    (herr : r = RunResult.errNetwork ∨ r = RunResult.errNotFound
      ∨ (∃ m, r = RunResult.errSyn m) ∨ ∃ s t, r = RunResult.errOther s t) :
    c'.url = c.url ∧ c'.payload = c.payload := by
  cases h with
  | fail =>
      simp only [Client.run] at hrun
      cases hrun
      exact ⟨rfl, rfl⟩
  | success status body =>
      simp only [Client.run] at hrun
      split at hrun
      · split at hrun
        · split at hrun
          · cases hrun
            rcases herr with h1 | h1 | ⟨m, h1⟩ | ⟨s, t, h1⟩ <;> exact absurd h1 (by simp)
          · split at hrun
            · cases hrun
              rcases herr with h1 | h1 | ⟨m, h1⟩ | ⟨s, t, h1⟩ <;> exact absurd h1 (by simp)
            · cases hrun
              rcases herr with h1 | h1 | ⟨m, h1⟩ | ⟨s, t, h1⟩ <;> exact absurd h1 (by simp)
        · cases hrun
          rcases herr with h1 | h1 | ⟨m, h1⟩ | ⟨s, t, h1⟩ <;> exact absurd h1 (by simp)
      · split at hrun
        · cases hrun
          exact ⟨rfl, rfl⟩
        · split at hrun
          · split at hrun
            · cases hrun
              exact ⟨rfl, rfl⟩
            · cases hrun
              exact ⟨rfl, rfl⟩
          · cases hrun
            exact ⟨rfl, rfl⟩

/-- C4 witness: a 404 on a concrete delete leaves URL and payload
untouched. -/
theorem C4_theorem_witness :
    ((((Client.new "http://localhost:8983" "nope").delete "*:*").run
        (.success 404 ⟨"not found", none⟩)).1.url
      = ((Client.new "http://localhost:8983" "nope").delete "*:*").url)
    ∧ ((((Client.new "http://localhost:8983" "nope").delete "*:*").run
        (.success 404 ⟨"not found", none⟩)).1.payload
      = ((Client.new "http://localhost:8983" "nope").delete "*:*").payload) :=
  C4_theorem ((Client.new "http://localhost:8983" "nope").delete "*:*")
    (((Client.new "http://localhost:8983" "nope").delete "*:*").run
      (.success 404 ⟨"not found", none⟩)).1
    (.success 404 ⟨"not found", none⟩) RunResult.errNotFound rfl
    (Or.inr (Or.inl rfl))

/-- C1, the claim as stated is false: a 500 response whose body is the
JSON object `\x7b\x7d` — parseable JSON without a string at `error.msg` —
makes `run` panic on `as_str().unwrap()` instead of returning the
claimed `Other` kind. -/
theorem C1_counterexample :
    (((Client.new "http://localhost:8983" "default").select "bad").run
        (.success 500 ⟨"\x7b\x7d", some (.obj [])⟩)).2 = RunResult.panicked
    ∧ (((Client.new "http://localhost:8983" "default").select "bad").run
        (.success 500 ⟨"\x7b\x7d", some (.obj [])⟩)).2
      ≠ RunResult.errOther 500 "\x7b\x7d" := by
  exact ⟨rfl, by decide⟩

/-- C1 as amended: for a status that is neither 200 nor 404, a body whose
JSON carries a string at `error.msg` yields `Syntax(msg)`; a body that is
not parseable JSON yields `Other \x7bstatus, body_text\x7d`; a body that
parses as JSON *without* a string at `error.msg` makes `run` panic; and a
404 always yields `NotFound` without body parsing. -/
theorem C1_theorem (c : Client) (status : Nat) (body : HttpBody)
    (h200 : status ≠ 200) (h404 : status ≠ 404) :
    (body.json = none →
      (c.run (.success status body)).2 = RunResult.errOther status body.text)
    ∧ (∀ j m, body.json = some j →
        ((j.getField "error").getField "msg").asStr = some m →
        (c.run (.success status body)).2 = RunResult.errSyn m)
    ∧ (∀ j, body.json = some j →
        ((j.getField "error").getField "msg").asStr = none →
        (c.run (.success status body)).2 = RunResult.panicked)
    ∧ ∀ b' : HttpBody, (c.run (.success 404 b')).2 = RunResult.errNotFound := by
  refine ⟨?_, ?_, ?_, ?_⟩
  · intro hj
    simp [Client.run, if_neg h200, if_neg h404, hj]
  · intro j m hj hm
    simp [Client.run, if_neg h200, if_neg h404, hj, hm]
  · intro j hj hm
    simp [Client.run, if_neg h200, if_neg h404, hj, hm]
  · intro b'
    simp [Client.run]

/-- C1 witness: the amended mapping at concrete 500 responses and a 404. -/
theorem C1_theorem_witness :
    ((Client.new "http://h" "c").run
        (.success 500 ⟨"some unparseable thing", none⟩)).2
      = RunResult.errOther 500 "some unparseable thing" :=
  ( C1_theorem (Client.new "http://h" "c") 500 ⟨"some unparseable thing", none⟩
    (by decide) (by decide)).1 rfl

/-- C10: a 200 response without `cursorMark` in the query whose body is
not parseable JSON gives `Ok(None)`, leaves the stored response empty,
and a subsequent `get_response` returns the default envelope — response,
facet_counts and nextCursorMark all absent; the decode failure never
surfaces as an error. -/
theorem C10_theorem (c : Client) (body : HttpBody)
    (hq : c.queryHasCursorMark = false) (hj : body.json = none) :
    (c.run (.success 200 body)).2 = RunResult.okNone
    ∧ (c.run (.success 200 body)).1.response = none
    ∧ (c.run (.success 200 body)).1.get_response = .ok SolrResponseM.default
    ∧ SolrResponseM.default.response = none
    ∧ SolrResponseM.default.facet_counts = none
    ∧ SolrResponseM.default.nextCursorMark = none := by
  have hq1 : ({ c with response := none } : Client).queryHasCursorMark = false := hq
  refine ⟨?_, ?_, ?_, rfl, rfl, rfl⟩ <;>
    simp [Client.run, hq1, hj, Client.get_response]

/-- C10 witness: a concrete select hitting an HTML error page body. -/
theorem C10_theorem_witness :
    ((((Client.new "http://h" "c").select "*:*").run
        (.success 200 ⟨"<html>not json</html>", none⟩)).2 = RunResult.okNone)
    ∧ ((((Client.new "http://h" "c").select "*:*").run
        (.success 200 ⟨"<html>not json</html>", none⟩)).1.response = none)
    ∧ ((((Client.new "http://h" "c").select "*:*").run
        (.success 200 ⟨"<html>not json</html>", none⟩)).1.get_response
      = .ok SolrResponseM.default)
    ∧ SolrResponseM.default.response = none
    ∧ SolrResponseM.default.facet_counts = none
    ∧ SolrResponseM.default.nextCursorMark = none :=
  C10_theorem ((Client.new "http://h" "c").select "*:*")
    ⟨"<html>not json</html>", none⟩ rfl rfl

/-- Whenever the envelope decoder succeeds with a present cursor mark,
that mark is the string stored at the top-level `nextCursorMark` key. -/
theorem decodeSolrResponse_mark (j : Json) (env : SolrResponseM) (s : String)
    (hdec : decodeSolrResponse j = .ok env)
    (hmark : env.nextCursorMark = some s) :
    (j.getField "nextCursorMark").asStr = some s := by
  cases j with
  | obj fields =>
      simp only [decodeSolrResponse] at hdec
      split at hdec
      · cases hdec
      · split at hdec
        · cases hdec
        · split at hdec
          · cases hdec
          · rename_i mark hm
            cases hdec
            simp only at hmark
            subst hmark
            simp only [decodeOptField] at hm
            cases hl : Json.lookupField fields "nextCursorMark" with
            | none =>
                rw [hl] at hm
                cases hm
            | some v =>
                rw [hl] at hm
                cases v with
                | null => cases hm
                | str t =>
                    simp only [decodeStrField, Except.map] at hm
                    cases hm
                    simp [Json.getField, hl, Json.asStr]
                | bool b => simp [decodeStrField, Except.map] at hm
                | num n => simp [decodeStrField, Except.map] at hm
                | arr xs => simp [decodeStrField, Except.map] at hm
                | obj f2 => simp [decodeStrField, Except.map] at hm
  | null => cases hdec
  | bool b => cases hdec
  | num n => cases hdec
  | str t => cases hdec
  | arr xs => cases hdec

/-- C9: a 200 response on a request whose query contains `cursorMark`,
with a body that is not parseable JSON or whose JSON has no string at
the top-level `nextCursorMark` key, makes `run` panic (unwrap on `None`)
instead of returning any value. -/
theorem C9_theorem (c : Client) (body : HttpBody)
    (hq : c.queryHasCursorMark = true)
    (hbad : body.json = none
      ∨ ∃ j, body.json = some j ∧ (j.getField "nextCursorMark").asStr = none) :
    (c.run (.success 200 body)).2 = RunResult.panicked := by
  rcases hbad with hj | ⟨j, hj, hm⟩
  · have hq1 : ({ c with response := none } : Client).queryHasCursorMark = true := hq
    simp [Client.run, hj, hq1, Client.get_response, SolrResponseM.default]
  · have hq1 : ({ c with response := some j } : Client).queryHasCursorMark = true := hq
    simp only [Client.run, hj, hq1, if_pos rfl, Client.get_response]
    cases hdec : decodeSolrResponse j with
    | error e => simp
    | ok env =>
        cases hm2 : env.nextCursorMark with
        | none => simp [hm2]
        | some s =>
            exact absurd (decodeSolrResponse_mark j env s hdec hm2) (by simp [hm])

/-- C9 witness: a cursor request answered with 200 and an unparseable
body panics. -/
theorem C9_theorem_witness :
    (((((Client.new "http://h" "c").select "*:*").sort "id asc").cursor).run
        (.success 200 ⟨"not json", none⟩)).2 = RunResult.panicked :=
  C9_theorem ((((Client.new "http://h" "c").select "*:*").sort "id asc").cursor)
    ⟨"not json", none⟩ rfl (Or.inl rfl)

/-- The `update_cursor_mark` regex matches right at the boundary
`…cursorMark=<ch>…` exactly when `<ch>` is a word character or `*`. -/
theorem cursorMarkMatchAt_cons (ch : Char) (rest : List Char) :
    cursorMarkMatchAt
        ('c' :: 'u' :: 'r' :: 's' :: 'o' :: 'r' :: 'M' :: 'a' :: 'r' :: 'k' :: '=' :: ch :: rest)
      = isWordOrStar ch := by
  simp [cursorMarkMatchAt, List.isPrefixOf]

/-- The length of `dropWhile` never exceeds the input's length. -/
theorem length_dropWhile_le (p : Char → Bool) (l : List Char) :
    (l.dropWhile p).length ≤ l.length := by
  induction l with
  | nil => simp
  | cons c rest ih =>
      rw [List.dropWhile_cons]
      split
      · exact Nat.le_succ_of_le ih
      · exact Nat.le_refl _

/-- Expansion does not depend on the exact fuel, as long as the fuel
covers the input's length. -/
theorem expandFuel_congr (ch : Char) :
    ∀ (f1 : Nat) (l : List Char) (f2 : Nat), l.length ≤ f1 → l.length ≤ f2 →
      expandFuel ch f1 l = expandFuel ch f2 l := by
  intro f1
  induction f1 with
  | zero =>
      intro l f2 h1 h2
      have hl : l = [] := List.eq_nil_of_length_eq_zero (Nat.le_zero.mp h1)
      subst hl
      cases f2 <;> rfl
  | succ f1 ih =>
      intro l f2 h1 h2
      cases l with
      | nil => cases f2 <;> rfl
      | cons c rest =>
          cases f2 with
          | zero => simp at h2
          | succ f2' =>
              have hr1 : rest.length ≤ f1 := by simp at h1; omega
              have hr2 : rest.length ≤ f2' := by simp at h2; omega
              by_cases hc : c = '$'
              · subst hc
                cases rest with
                | nil => rfl
                | cons d rest2 =>
                    have hd1 : (d :: rest2).length ≤ f1 := hr1
                    have hd2 : (d :: rest2).length ≤ f2' := hr2
                    have hs1 : rest2.length ≤ f1 := by simp at hd1; omega
                    have hs2 : rest2.length ≤ f2' := by simp at hd2; omega
                    simp only [expandFuel]
                    by_cases hd : d = '$'
                    · subst hd
                      simp [ih rest2 f2' hs1 hs2]
                    · by_cases hb : d = Char.ofNat 0x7B
                      · subst hb
                        by_cases hdrop : rest2.dropWhile (fun x => !(x == Char.ofNat 0x7D)) = []
                        · simp [hd, hdrop, ih _ f2' hd1 hd2]
                        · by_cases htake :
                              rest2.takeWhile (fun x => !(x == Char.ofNat 0x7D)) = []
                          · simp [hd, hdrop, htake, ih _ f2' hd1 hd2]
                          · have hlen : ((rest2.dropWhile
                                (fun x => !(x == Char.ofNat 0x7D))).tail).length
                                ≤ rest2.length := by
                              have h5 := length_dropWhile_le
                                (fun x => !(x == Char.ofNat 0x7D)) rest2
                              rw [List.length_tail]
                              omega
                            simp [hd, hdrop, htake,
                              ih ((rest2.dropWhile (fun x => !(x == Char.ofNat 0x7D))).tail) f2'
                                (Nat.le_trans hlen hs1) (Nat.le_trans hlen hs2)]
                      · by_cases htk : (d :: rest2).takeWhile isRefChar = []
                        · simp [hd, hb, htk, ih (d :: rest2) f2' hd1 hd2]
                        · have hlen : ((d :: rest2).drop
                              ((d :: rest2).takeWhile isRefChar).length).length
                              ≤ (d :: rest2).length := by
                            rw [List.length_drop]
                            omega
                          simp [hd, hb, htk,
                            ih ((d :: rest2).drop ((d :: rest2).takeWhile isRefChar).length) f2'
                              (Nat.le_trans hlen hd1) (Nat.le_trans hlen hd2)]
              · simp only [expandFuel]
                rw [if_neg hc, if_neg hc, ih rest f2' hr1 hr2]

/-- The replacement string `${1}<mark>` expands to the literal
`cursorMark=` (capture group 1) followed by the expansion of the mark
itself. -/
theorem expandDollar_marker (ch : Char) (m : String) :
    expandDollar ch ("${1}".data ++ m.data)
      = "cursorMark=".data ++ expandDollar ch m.data := by
  have hlen : ("${1}".data ++ m.data).length = Nat.succ (m.data.length + 3) := by
    show ('$' :: Char.ofNat 0x7B :: '1' :: Char.ofNat 0x7D :: m.data).length
      = Nat.succ (m.data.length + 3)
    simp only [List.length_cons]
  show expandFuel ch ("${1}".data ++ m.data).length ("${1}".data ++ m.data) = _
  rw [hlen]
  show expandFuel ch (Nat.succ (m.data.length + 3))
      ('$' :: Char.ofNat 0x7B :: '1' :: Char.ofNat 0x7D :: m.data)
    = "cursorMark=".data ++ expandDollar ch m.data
  simp +decide [expandFuel, refValue, isDigitChar, natOfDigits, groupText]
  have hsl : m.length = m.data.length := rfl
  rw [hsl]
  exact expandFuel_congr ch (m.data.length + 3) m.data m.data.length (by omega) (Nat.le_refl _)

/-- A replacement without `$` expands to itself. -/
theorem expandFuel_nodollar (ch : Char) :
    ∀ (f : Nat) (l : List Char), (∀ x ∈ l, x ≠ '$') → expandFuel ch f l = l := by
  intro f
  induction f with
  | zero =>
      intro l _
      cases l <;> rfl
  | succ f ih =>
      intro l h
      cases l with
      | nil => rfl
      | cons c rest =>
          simp only [expandFuel]
          rw [if_neg (h c (by simp)), ih rest (fun x hx => h x (by simp [hx]))]

/-- A mark without `$` is inserted literally. -/
theorem expandDollar_nodollar (ch : Char) (l : List Char) (h : ∀ x ∈ l, x ≠ '$') :
    expandDollar ch l = l :=
  expandFuel_nodollar ch l.length l h

/-- Effect of the single leftmost regex replacement: with the first match
at the boundary, only the eleven-character literal and ONE mark character
are consumed, their span replaced by the expansion of `${1}<mark>`; the
rest of the old mark (`rest`) survives after the inserted text. -/
theorem replaceCursorMark_split (m : String) (a rest : List Char) (ch : Char)
    (hch : isWordOrStar ch = true)
    (hfirst : ∀ i, i < a.length →
      cursorMarkMatchAt ((a ++ "cursorMark=".data ++ ch :: rest).drop i) = false) :
    replaceCursorMark m (a ++ "cursorMark=".data ++ ch :: rest)
      = a ++ expandDollar ch ("${1}".data ++ m.data) ++ rest := by
  induction a with
  | nil =>
      have hm := cursorMarkMatchAt_cons ch rest
      simp only [List.nil_append]
      simp [replaceCursorMark, hm, hch]
  | cons x a' ih =>
      have h0 : cursorMarkMatchAt
          (x :: (a' ++ 'c' :: 'u' :: 'r' :: 's' :: 'o' :: 'r' :: 'M' :: 'a' :: 'r' :: 'k' :: '='
            :: ch :: rest)) = false := by
        simpa using hfirst 0 (by simp)
      have hrest : ∀ i, i < a'.length →
          cursorMarkMatchAt ((a' ++ "cursorMark=".data ++ ch :: rest).drop i) = false := by
        intro i hi
        have := hfirst (i + 1) (by simpa using Nat.succ_lt_succ hi)
        simpa using this
      simp only [List.cons_append]
      rw [replaceCursorMark]
      rw [if_neg (by simp [h0])]
      rw [ih hrest]
      rfl

/-- C8, the claim as stated is false: with query `q=x&cursorMark=abc`,
`update_cursor_mark("XY")` yields `q=x&cursorMark=XYbc` — the regex
`(cursorMark=)(\w|\*)` consumes only one character of the old mark — not
the claimed `q=x&cursorMark=XY`; and with a query lacking `cursorMark`
the call silently leaves the URL unchanged instead of failing. -/
theorem C8_counterexample :
    ((((Client.new "http://h" "c").select "x").add_query_param "cursorMark" "abc").update_cursor_mark
          "XY").map Client.url_str
      = some "http://h/solr/c/select?q=x&cursorMark=XYbc"
    ∧ ((((Client.new "http://h" "c").select "x").add_query_param "cursorMark" "abc").update_cursor_mark
          "XY").map Client.url_str
      ≠ some "http://h/solr/c/select?q=x&cursorMark=XY"
    ∧ (((Client.new "http://h" "c").select "x").update_cursor_mark "XY").map
          (fun x => x.url.query)
      = some (some "q=x") := by
  exact ⟨rfl, by decide, rfl⟩

/-- C8 as amended: `update_cursor_mark(m)` performs one leftmost
replacement of the token `cursorMark=` *plus a single* word-or-star
character by the `$`-expansion of the replacement `${1}<m>` — that is,
`cursorMark=` followed by the expansion of `m`, where a `$`-free mark is
inserted literally — leaving everything else, including any remaining
characters of a longer old mark, in place, and the whole query is then
re-encoded by `set_query`'s percent-encoding; when the URL has no query
part at all the call panics (modelled as `none`); a query without such a
token is not replaced (no failure), only re-encoded by `set_query`. -/
theorem C8_theorem (c : Client) (m q : String) (a rest : List Char) (ch : Char)
    (hq : c.url.query = some q)
    (hsplit : q.data = a ++ "cursorMark=".data ++ ch :: rest)
    (hch : isWordOrStar ch = true)
    (hfirst : ∀ i, i < a.length → cursorMarkMatchAt (q.data.drop i) = false) :
    (c.update_cursor_mark m).map (fun x => x.url.query)
      = some (some (setQueryEncode
          ⟨a ++ "cursorMark=".data ++ expandDollar ch m.data ++ rest⟩))
    ∧ ((∀ x ∈ m.data, x ≠ '$') → expandDollar ch m.data = m.data)
    ∧ (∀ c' : Client, c'.url.query = none → c'.update_cursor_mark m = none)
    ∧ (∀ (c' : Client) (q' : String), c'.url.query = some q' →
        (∀ i, cursorMarkMatchAt (q'.data.drop i) = false) →
        (c'.update_cursor_mark m).map (fun x => x.url.query)
          = some (some (setQueryEncode q'))) := by
  refine ⟨?_, fun h => expandDollar_nodollar ch m.data h, ?_, ?_⟩
  · rw [hsplit] at hfirst
    have hr := replaceCursorMark_split m a rest ch hch hfirst
    have hu : c.update_cursor_mark m
        = some { c with url := { c.url with
            query := some (setQueryEncode ⟨replaceCursorMark m q.data⟩) } } := by
      simp [Client.update_cursor_mark, hq]
    rw [hu]
    simp only [Option.map]
    rw [hsplit, hr, expandDollar_marker]
    simp [List.append_assoc]
  · intro c' h
    simp [Client.update_cursor_mark, h]
  · intro c' q' h hnone
    have hrepl : ∀ l : List Char, (∀ i, cursorMarkMatchAt (l.drop i) = false) →
        replaceCursorMark m l = l := by
      intro l
      induction l with
      | nil => intro _; rfl
      | cons x xs ih =>
          intro hl
          have h0 : cursorMarkMatchAt (x :: xs) = false := by simpa using hl 0
          rw [replaceCursorMark, if_neg (by simp [h0])]
          rw [ih (fun i => by simpa using hl (i + 1))]
    simp [Client.update_cursor_mark, h, hrepl q'.data hnone]

/-- C8 witness: the amended replacement behaviour on the query
`q=x&cursorMark=abc` with new mark `XY`. -/
theorem C8_theorem_witness :
    ((((Client.new "http://h" "c").select "x").add_query_param "cursorMark" "abc").update_cursor_mark
        "XY").map (fun x => x.url.query)
      = some (some (setQueryEncode
          ⟨"q=x&".data ++ "cursorMark=".data ++ expandDollar 'a' "XY".data ++ "bc".data⟩)) :=
  ( C8_theorem (((Client.new "http://h" "c").select "x").add_query_param "cursorMark" "abc")
    "XY" "q=x&cursorMark=abc" "q=x&".data "bc".data 'a' rfl rfl (by decide)
    (by decide)).1

/-- Hexadecimal digit characters are never `&`, `=`, `?` or `/`. -/
theorem hexDigitChar_safe : ∀ d, d < 16 →
    hexDigitChar d ≠ '&' ∧ hexDigitChar d ≠ '=' ∧ hexDigitChar d ≠ '?'
      ∧ hexDigitChar d ≠ '/' ∧ hexDigitChar d ≠ '#' := by decide

/-- Characters of a `%XX` escape: the percent sign or a hex digit. -/
theorem percentByte_chars (b : Nat) (x : Char) (hx : x ∈ percentByte b) :
    x = '%' ∨ ∃ d, d < 16 ∧ x = hexDigitChar d := by
  simp only [percentByte, List.mem_cons, List.not_mem_nil, or_false] at hx
  rcases hx with h | h | h
  · exact Or.inl h
  · exact Or.inr ⟨b / 16 % 16, Nat.mod_lt _ (by omega), h⟩
  · exact Or.inr ⟨b % 16, Nat.mod_lt _ (by omega), h⟩

/-- No character emitted by the form-urlencoded encoder is `&` or `=`. -/
theorem formEncChar_safe (c x : Char) (hx : x ∈ formEncChar c) :
    x ≠ '&' ∧ x ≠ '=' := by
  unfold formEncChar at hx
  split at hx
  · rename_i hpass
    simp only [List.mem_singleton] at hx
    subst hx
    constructor <;> rintro rfl <;> simp [formPassChar] at hpass
  · split at hx
    · simp only [List.mem_singleton] at hx
      subst hx
      exact ⟨by decide, by decide⟩
    · rw [List.mem_flatMap] at hx
      obtain ⟨b, _, hb⟩ := hx
      rcases percentByte_chars b x hb with rfl | ⟨d, hd, rfl⟩
      · exact ⟨by decide, by decide⟩
      · obtain ⟨h1, h2, _⟩ := hexDigitChar_safe d hd
        exact ⟨h1, h2⟩

/-- No character of a form-urlencoded component is `&` or `=`. -/
theorem formEncode_safe (s : String) :
    ∀ x ∈ (formEncode s).data, x ≠ '&' ∧ x ≠ '=' := by
  intro x hx
  have hx' : x ∈ s.data.flatMap formEncChar := hx
  rw [List.mem_flatMap] at hx'
  obtain ⟨c, _, hc⟩ := hx'
  exact formEncChar_safe c x hc

/-- `splitSep` never produces the empty list of pieces. -/
theorem splitSep_ne_nil (sep : Char) (l : List Char) : splitSep sep l ≠ [] := by
  induction l with
  | nil => simp [splitSep]
  | cons c cs ih =>
      rw [splitSep]
      split
      · simp
      · split
        · simp
        · simp

/-- Splitting a list with a separator spliced in splits around it. -/
theorem splitSep_append (sep : Char) (xs ys : List Char) :
    splitSep sep (xs ++ sep :: ys) = splitSep sep xs ++ splitSep sep ys := by
  induction xs with
  | nil => simp [splitSep]
  | cons c cs ih =>
      simp only [List.cons_append]
      rw [splitSep, splitSep]
      by_cases hc : c = sep
      · rw [if_pos hc, if_pos hc, ih]
        simp
      · rw [if_neg hc, if_neg hc]
        rw [ih]
        cases hcs : splitSep sep cs with
        | nil => exact absurd hcs (splitSep_ne_nil sep cs)
        | cons p ps => simp

/-- A separator-free list splits into the single piece it is. -/
theorem splitSep_of_not_mem (sep : Char) (l : List Char)
    (h : ∀ x ∈ l, x ≠ sep) : splitSep sep l = [l] := by
  induction l with
  | nil => rfl
  | cons c cs ih =>
      rw [splitSep, if_neg (h c (by simp))]
      rw [ih (fun x hx => h x (by simp [hx]))]

/-- Splitting `name=value` at the first `=` when `name` is `=`-free. -/
theorem splitFirstEq_append (n v : List Char) (hn : ∀ x ∈ n, x ≠ '=') :
    splitFirstEq (n ++ '=' :: v) = (n, v) := by
  induction n with
  | nil => simp [splitFirstEq]
  | cons c cs ih =>
      simp only [List.cons_append]
      rw [splitFirstEq, if_neg (hn c (by simp))]
      rw [ih (fun x hx => hn x (by simp [hx]))]

/-- Parsing after `append_pair`: the old pairs followed by the
decode of the newly encoded pair. -/
theorem parseQueryPairs_append (q : Option String) (k v : String) :
    parseQueryPairs (appendPairEnc q k v)
      = parseQueryPairs q
        ++ [(⟨percentPlusDecode (formEncode k).data⟩, ⟨percentPlusDecode (formEncode v).data⟩)] := by
  have hdata : (formEncode k ++ "=" ++ formEncode v).data
      = (formEncode k).data ++ '=' :: (formEncode v).data := by
    simp [String.data_append]
  have hsplit1 : splitFirstEq ((formEncode k).data ++ '=' :: (formEncode v).data)
      = ((formEncode k).data, (formEncode v).data) :=
    splitFirstEq_append _ _ (fun x hx => (formEncode_safe k x hx).2)
  have hnoamp : ∀ x ∈ (formEncode k).data ++ '=' :: (formEncode v).data, x ≠ '&' := by
    intro x hx
    rcases List.mem_append.mp hx with h | h
    · exact (formEncode_safe k x h).1
    · rcases List.mem_cons.mp h with rfl | h
      · decide
      · exact (formEncode_safe v x h).1
  have hpiece : splitSep '&' ((formEncode k).data ++ '=' :: (formEncode v).data)
      = [(formEncode k).data ++ '=' :: (formEncode v).data] :=
    splitSep_of_not_mem _ _ hnoamp
  have hne : (formEncode k).data ++ '=' :: (formEncode v).data ≠ [] := by simp
  cases q with
  | none =>
      simp only [appendPairEnc, parseQueryPairs, hdata, hpiece]
      simp [hne, hsplit1]
  | some s =>
      by_cases hs : s.isEmpty
      · have hs' : s = "" := (String.isEmpty_iff s).mp hs
        subst hs'
        have happ : appendPairEnc (some "") k v = some (formEncode k ++ "=" ++ formEncode v) := rfl
        rw [happ]
        simp only [parseQueryPairs, hdata, hpiece]
        simp [hne, hsplit1, splitSep]
      · simp only [appendPairEnc, if_neg hs, parseQueryPairs]
        have hdata2 : (s ++ "&" ++ (formEncode k ++ "=" ++ formEncode v)).data
            = s.data ++ '&' :: ((formEncode k).data ++ '=' :: (formEncode v).data) := by
          simp [String.data_append]
        rw [hdata2, splitSep_append, hpiece]
        simp [hne, hsplit1]

/-- `add_query_param` only rewrites the query component. -/
theorem add_query_param_query (c : Client) (k v : String) :
    (c.add_query_param k v).url.query = appendPairEnc c.url.query k v := rfl

/-- A facet helper on a client without `facet=on` first appends the
switch pair and then its own pair. -/
theorem applyFacet_absent (c : Client) (fc : FacetCall)
    (h : ("facet", "on") ∉ parseQueryPairs c.url.query) :
    parseQueryPairs (applyFacet c fc).url.query
      = parseQueryPairs c.url.query ++ [("facet", "on"), fc.pair] := by
  have hswitch : (c.switch_on_facet) = c.add_query_param "facet" "on" := by
    rw [Client.switch_on_facet, if_neg h]
  have e1 : (⟨percentPlusDecode (formEncode "facet").data⟩ : String) = "facet" := rfl
  have e2 : (⟨percentPlusDecode (formEncode "on").data⟩ : String) = "on" := rfl
  have e3 : (⟨percentPlusDecode (formEncode "facet_field").data⟩ : String) = "facet_field" := rfl
  have e4 : (⟨percentPlusDecode (formEncode "facet_query").data⟩ : String) = "facet_query" := rfl
  cases fc with
  | field f =>
      show parseQueryPairs ((c.switch_on_facet).add_query_param "facet_field" f).url.query = _
      rw [add_query_param_query, parseQueryPairs_append, hswitch,
        add_query_param_query, parseQueryPairs_append, e1, e2, e3]
      simp [FacetCall.pair]
  | fquery q =>
      show parseQueryPairs ((c.switch_on_facet).add_query_param "facet_query" q).url.query = _
      rw [add_query_param_query, parseQueryPairs_append, hswitch,
        add_query_param_query, parseQueryPairs_append, e1, e2, e4]
      simp [FacetCall.pair]

/-- A facet helper on a client that already has `facet=on` appends only
its own pair. -/
theorem applyFacet_present (c : Client) (fc : FacetCall)
    (h : ("facet", "on") ∈ parseQueryPairs c.url.query) :
    parseQueryPairs (applyFacet c fc).url.query
      = parseQueryPairs c.url.query ++ [fc.pair] := by
  have hswitch : (c.switch_on_facet) = c := by
    rw [Client.switch_on_facet, if_pos h]
  have e3 : (⟨percentPlusDecode (formEncode "facet_field").data⟩ : String) = "facet_field" := rfl
  have e4 : (⟨percentPlusDecode (formEncode "facet_query").data⟩ : String) = "facet_query" := rfl
  cases fc with
  | field f =>
      show parseQueryPairs ((c.switch_on_facet).add_query_param "facet_field" f).url.query = _
      rw [hswitch, add_query_param_query, parseQueryPairs_append, e3]
      simp [FacetCall.pair]
  | fquery q =>
      show parseQueryPairs ((c.switch_on_facet).add_query_param "facet_query" q).url.query = _
      rw [hswitch, add_query_param_query, parseQueryPairs_append, e4]
      simp [FacetCall.pair]

/-- Folding facet helpers over a client that already has `facet=on`
appends exactly one pair per call, in call order. -/
theorem foldFacet_present (cs : List FacetCall) (c : Client)
    (h : ("facet", "on") ∈ parseQueryPairs c.url.query) :
    parseQueryPairs (cs.foldl applyFacet c).url.query
      = parseQueryPairs c.url.query ++ cs.map FacetCall.pair := by
  induction cs generalizing c with
  | nil => simp
  | cons fc cs' ih =>
      rw [List.foldl_cons]
      rw [ih (applyFacet c fc) (by rw [applyFacet_present c fc h]; exact List.mem_append_left _ h)]
      rw [applyFacet_present c fc h]
      simp

/-- No facet helper's own pair is the switch pair. -/
theorem facetPair_ne_switch (fc : FacetCall) : fc.pair ≠ ("facet", "on") := by
  cases fc with
  | field f =>
      intro hpair
      have : "facet_field" = "facet" := congrArg Prod.fst hpair
      exact absurd this (by decide)
  | fquery q =>
      intro hpair
      have : "facet_query" = "facet" := congrArg Prod.fst hpair
      exact absurd this (by decide)

/-- C5: for every nonempty sequence of `facet_field`/`facet_query` calls
on a client whose query pairs do not yet contain `facet=on`, the pair
`facet=on` ends up appearing exactly once, inserted at the position of
the first facet call, and each call appends its own
`facet_field`/`facet_query` pair in call order. -/
theorem C5_theorem (c : Client) (cs : List FacetCall) (hcs : cs ≠ [])
    (hfree : ("facet", "on") ∉ parseQueryPairs c.url.query) :
    parseQueryPairs (cs.foldl applyFacet c).url.query
      = parseQueryPairs c.url.query ++ ("facet", "on") :: cs.map FacetCall.pair
    ∧ List.count ("facet", "on") (parseQueryPairs (cs.foldl applyFacet c).url.query) = 1 := by
  obtain ⟨fc, cs', rfl⟩ := List.exists_cons_of_ne_nil hcs
  have hmem : ("facet", "on") ∈ parseQueryPairs (applyFacet c fc).url.query := by
    rw [applyFacet_absent c fc hfree]
    simp
  have hmain : parseQueryPairs ((fc :: cs').foldl applyFacet c).url.query
      = parseQueryPairs c.url.query ++ ("facet", "on") :: (fc :: cs').map FacetCall.pair := by
    rw [List.foldl_cons, foldFacet_present cs' (applyFacet c fc) hmem,
      applyFacet_absent c fc hfree]
    simp
  refine ⟨hmain, ?_⟩
  rw [hmain, List.count_append, List.count_cons]
  have h0 : List.count ("facet", "on") (parseQueryPairs c.url.query) = 0 :=
    List.count_eq_zero.mpr hfree
  have h1 : List.count ("facet", "on") ((fc :: cs').map FacetCall.pair) = 0 := by
    refine List.count_eq_zero.mpr ?_
    intro hmem2
    obtain ⟨fc', _, hpair⟩ := List.mem_map.mp hmem2
    exact facetPair_ne_switch fc' hpair
  rw [h0, h1]
  simp

/-- C5 witness: one `facet_field` then one `facet_query` on a fresh
select client yields the switch pair once, in first-call position. -/
theorem C5_theorem_witness :
    parseQueryPairs
        (([FacetCall.field "f1", FacetCall.fquery "g:1"].foldl applyFacet
          ((Client.new "http://h" "c").select "*:*")).url.query)
      = parseQueryPairs ((Client.new "http://h" "c").select "*:*").url.query
        ++ ("facet", "on")
          :: [FacetCall.field "f1", FacetCall.fquery "g:1"].map FacetCall.pair
    ∧ List.count ("facet", "on")
        (parseQueryPairs
          (([FacetCall.field "f1", FacetCall.fquery "g:1"].foldl applyFacet
            ((Client.new "http://h" "c").select "*:*")).url.query)) = 1 :=
  C5_theorem ((Client.new "http://h" "c").select "*:*")
    [FacetCall.field "f1", FacetCall.fquery "g:1"] (List.cons_ne_nil _ _) (by decide)

/-- Strings with equal character data are equal. -/
theorem strEq_of_data (a b : String) (h : a.data = b.data) : a = b := by
  cases a
  cases b
  exact congrArg String.mk h

/-- `dropWhile` over an append whose first part wholly satisfies the
predicate. -/
theorem dropWhileAppendAll (p : Char → Bool) (xs ys : List Char)
    (h : ∀ x ∈ xs, p x = true) :
    (xs ++ ys).dropWhile p = ys.dropWhile p := by
  induction xs with
  | nil => rfl
  | cons c cs ih =>
      simp only [List.cons_append, List.dropWhile_cons, h c (by simp)]
      exact ih (fun x hx => h x (by simp [hx]))

/-- `takeWhile` over an append whose first part wholly satisfies the
predicate. -/
theorem takeWhileAppendAll (p : Char → Bool) (xs ys : List Char)
    (h : ∀ x ∈ xs, p x = true) :
    (xs ++ ys).takeWhile p = xs ++ ys.takeWhile p := by
  induction xs with
  | nil => rfl
  | cons c cs ih =>
      simp only [List.cons_append, List.takeWhile_cons, h c (by simp)]
      rw [ih (fun x hx => h x (by simp [hx]))]
      simp

/-- No character emitted by the path-segment encoder is `/`, `?` or `#`. -/
theorem segEncChar_safe (c x : Char) (hx : x ∈ segEncChar c) :
    x ≠ '/' ∧ x ≠ '?' ∧ x ≠ '#' := by
  unfold segEncChar at hx
  split at hx
  · rw [List.mem_flatMap] at hx
    obtain ⟨b, _, hb⟩ := hx
    rcases percentByte_chars b x hb with rfl | ⟨d, hd, rfl⟩
    · exact ⟨by decide, by decide, by decide⟩
    · obtain ⟨_, _, h3, h4, h5⟩ := hexDigitChar_safe d hd
      exact ⟨h4, h3, h5⟩
  · rename_i hesc
    simp only [List.mem_singleton] at hx
    subst hx
    refine ⟨?_, ?_, ?_⟩ <;> rintro rfl <;> simp [pathSegEscapes] at hesc
  

/-- No character of an encoded path segment is `/`, `?` or `#`. -/
theorem pathSegmentEncode_safe (s : String) :
    ∀ x ∈ (pathSegmentEncode s).data, x ≠ '/' ∧ x ≠ '?' ∧ x ≠ '#' := by
  intro x hx
  have hx' : x ∈ s.data.flatMap segEncChar := hx
  rw [List.mem_flatMap] at hx'
  obtain ⟨c, _, hc⟩ := hx'
  exact segEncChar_safe c x hc

/-- No character emitted by the form-urlencoded encoder is `?`. -/
theorem formEncChar_noQuestion (c x : Char) (hx : x ∈ formEncChar c) : x ≠ '?' := by
  unfold formEncChar at hx
  split at hx
  · rename_i hpass
    simp only [List.mem_singleton] at hx
    subst hx
    rintro rfl
    simp [formPassChar] at hpass
  · split at hx
    · simp only [List.mem_singleton] at hx
      subst hx
      decide
    · rw [List.mem_flatMap] at hx
      obtain ⟨b, _, hb⟩ := hx
      rcases percentByte_chars b x hb with rfl | ⟨d, hd, rfl⟩
      · decide
      · exact (hexDigitChar_safe d hd).2.2.1

/-- No character of a form-urlencoded component is `?`. -/
theorem formEncode_noQuestion (s : String) :
    ∀ x ∈ (formEncode s).data, x ≠ '?' := by
  intro x hx
  have hx' : x ∈ s.data.flatMap formEncChar := hx
  rw [List.mem_flatMap] at hx'
  obtain ⟨c, _, hc⟩ := hx'
  exact formEncChar_noQuestion c x hc

/-- Appending an encoded pair keeps the query `?`-free. -/
theorem queryOk_add (c : Client) (k v : String) (h : queryOk c) :
    queryOk (c.add_query_param k v) := by
  intro q hq x hx
  have hq' : appendPairEnc c.url.query k v = some q := hq
  have hpair : ∀ y ∈ (formEncode k ++ "=" ++ formEncode v).data, y ≠ '?' := by
    intro y hy
    have hy' : y ∈ (formEncode k).data ++ '=' :: (formEncode v).data := by
      simpa [String.data_append] using hy
    rcases List.mem_append.mp hy' with h1 | h1
    · exact formEncode_noQuestion k y h1
    · rcases List.mem_cons.mp h1 with rfl | h1
      · decide
      · exact formEncode_noQuestion v y h1
  cases hcq : c.url.query with
  | none =>
      have he : appendPairEnc none k v = some (formEncode k ++ "=" ++ formEncode v) := rfl
      rw [hcq, he] at hq'
      cases hq'
      exact hpair x hx
  | some s =>
      by_cases hs : s.isEmpty
      · have he : appendPairEnc (some s) k v = some (formEncode k ++ "=" ++ formEncode v) := by
          simp [appendPairEnc, hs]
        rw [hcq, he] at hq'
        cases hq'
        exact hpair x hx
      · have he : appendPairEnc (some s) k v
            = some (s ++ "&" ++ (formEncode k ++ "=" ++ formEncode v)) := by
          simp [appendPairEnc, hs]
        rw [hcq, he] at hq'
        cases hq'
        have hx' : x ∈ s.data ++ '&' :: (formEncode k ++ "=" ++ formEncode v).data := by
          simpa [String.data_append] using hx
        rcases List.mem_append.mp hx' with h1 | h1
        · exact h s hcq x h1
        · rcases List.mem_cons.mp h1 with rfl | h1
          · decide
          · exact hpair x h1

/-- `switch_on_facet` keeps the query `?`-free. -/
theorem queryOk_switch (c : Client) (h : queryOk c) : queryOk c.switch_on_facet := by
  unfold Client.switch_on_facet
  split
  · exact h
  · exact queryOk_add c "facet" "on" h

/-- Every builder call keeps the query `?`-free. -/
theorem queryOk_applyCall (c : Client) (b : BuilderCall) (h : queryOk c) :
    queryOk (applyCall c b) := by
  cases b with
  | add_query_param k v => exact queryOk_add c k v h
  | facet_field f => exact queryOk_add _ "facet_field" f (queryOk_switch c h)
  | facet_query q => exact queryOk_add _ "facet_query" q (queryOk_switch c h)
  | request_handler hnd => exact fun q hq => h q hq
  | auto_commit => exact queryOk_add c "commit" "true" h
  | start n => exact queryOk_add c "start" (toString n) h
  | sort s => exact queryOk_add c "sort" s h
  | cursor => exact queryOk_add c "cursorMark" "*" h
  | rows n => exact queryOk_add c "rows" (toString n) h
  | query q => exact queryOk_add c "q" q h
  | default_field df => exact queryOk_add c "df" df h
  | dismax => exact queryOk_add c "defType" "dismax" h
  | edismax => exact queryOk_add c "defType" "edismax" h
  | set_document v => exact fun q hq => h q hq
  | set_empty_payload => exact fun q hq => h q hq
  | clear_payload => exact fun q hq => h q hq

/-- No builder call touches the scheme-plus-authority. -/
theorem applyCall_base (c : Client) (b : BuilderCall) :
    (applyCall c b).url.base = c.url.base := by
  cases b <;> simp [applyCall, Client.add_query_param, Client.facet_field, Client.facet_query,
    Client.switch_on_facet, Client.request_handler, Client.auto_commit, Client.start,
    Client.sort, Client.cursor, Client.rows, Client.query, Client.default_field,
    Client.dismax, Client.edismax, Client.set_document, Client.set_empty_payload,
    Client.clear_payload] <;> split <;> rfl

/-- No builder call changes the collection. -/
theorem applyCall_collection (c : Client) (b : BuilderCall) :
    (applyCall c b).collection = c.collection := by
  cases b <;> simp [applyCall, Client.add_query_param, Client.facet_field, Client.facet_query,
    Client.switch_on_facet, Client.request_handler, Client.auto_commit, Client.start,
    Client.sort, Client.cursor, Client.rows, Client.query, Client.default_field,
    Client.dismax, Client.edismax, Client.set_document, Client.set_empty_payload,
    Client.clear_payload] <;> split <;> rfl

/-- Builder calls other than `request_handler` keep the path segments. -/
theorem applyCall_pathSegs (c : Client) (b : BuilderCall) (hb : b.isHandler = false) :
    (applyCall c b).url.pathSegs = c.url.pathSegs := by
  cases b <;> simp [BuilderCall.isHandler] at hb ⊢ <;>
    simp [applyCall, Client.add_query_param, Client.facet_field, Client.facet_query,
      Client.switch_on_facet, Client.auto_commit, Client.start,
      Client.sort, Client.cursor, Client.rows, Client.query, Client.default_field,
      Client.dismax, Client.edismax, Client.set_document, Client.set_empty_payload,
      Client.clear_payload] <;> split <;> rfl

/-- Folding builder calls never touches the scheme-plus-authority. -/
theorem applyCalls_base (cs : List BuilderCall) (c : Client) :
    (applyCalls c cs).url.base = c.url.base := by
  induction cs generalizing c with
  | nil => rfl
  | cons b cs ih => exact (ih (applyCall c b)).trans (applyCall_base c b)

/-- Folding builder calls never changes the collection. -/
theorem applyCalls_collection (cs : List BuilderCall) (c : Client) :
    (applyCalls c cs).collection = c.collection := by
  induction cs generalizing c with
  | nil => rfl
  | cons b cs ih => exact (ih (applyCall c b)).trans (applyCall_collection c b)

/-- Folding builder calls keeps the query `?`-free. -/
theorem applyCalls_queryOk (cs : List BuilderCall) (c : Client) (h : queryOk c) :
    queryOk (applyCalls c cs) := by
  induction cs generalizing c with
  | nil => exact h
  | cons b cs ih => exact ih (applyCall c b) (queryOk_applyCall c b h)

/-- Folding handler-free builder calls keeps the path segments. -/
theorem applyCalls_pathSegs (cs : List BuilderCall) (c : Client)
    (h : ∀ b ∈ cs, b.isHandler = false) :
    (applyCalls c cs).url.pathSegs = c.url.pathSegs := by
  induction cs generalizing c with
  | nil => rfl
  | cons b cs ih =>
      exact (ih (applyCall c b) (fun b' hb' => h b' (by simp [hb']))).trans
        (applyCall_pathSegs c b (h b (by simp)))

/-- Character data of a three-segment rendered path. -/
theorem renderPath3_data (a b c : String) :
    (renderPath [a, b, c]).data
      = '/' :: (a.data ++ '/' :: (b.data ++ '/' :: c.data)) := by
  have h0 : ("" : String).data = [] := rfl
  have h1 : ("/" : String).data = ['/'] := rfl
  simp [renderPath, String.data_append, h0, h1]

/-- The scheme-skipping scan consumes exactly `http://`. -/
theorem afterSchemeAux_http (l : List Char) :
    afterSchemeAux ('h' :: 't' :: 't' :: 'p' :: ':' :: '/' :: '/' :: l) = l := rfl


/-- `takeWhile` up to the question mark that starts the query part (or
the end of the URL) returns exactly the `?`-free path. -/
theorem takeWhile_path (L QPD : List Char) (hL : ∀ x ∈ L, x ≠ '?')
    (hq : QPD = [] ∨ ∃ t, QPD = '?' :: t) :
    (L ++ QPD).takeWhile (fun c => !(c == '?')) = L := by
  have hstep : (L ++ QPD).takeWhile (fun c => !(c == '?'))
      = L ++ QPD.takeWhile (fun c => !(c == '?')) := by
    refine takeWhileAppendAll _ L QPD (fun x hx => ?_)
    have : (x == '?') = false := beq_eq_false_iff_ne.mpr (hL x hx)
    simp [this]
  rw [hstep]
  rcases hq with rfl | ⟨t, rfl⟩
  · simp
  · simp [List.takeWhile_cons]

/-- Parsing the path back out of a rendered client URL recovers the
rendered three-segment path, whatever the query part holds. -/
theorem parseUrlPath_render (host p2 p3 : String) (q : Option String)
    (hhost : ∀ x ∈ host.data, x ≠ '/')
    (hp2 : ∀ x ∈ p2.data, x ≠ '/' ∧ x ≠ '?' ∧ x ≠ '#')
    (hp3 : ∀ x ∈ p3.data, x ≠ '/' ∧ x ≠ '?' ∧ x ≠ '#') :
    parseUrlPath (("http://" ++ host) ++ renderPath ["solr", p2, p3]
        ++ (match q with | none => "" | some qq => "?" ++ qq))
      = renderPath ["solr", p2, p3] := by
  apply strEq_of_data
  have hscheme : ("http://" : String).data = ['h', 't', 't', 'p', ':', '/', '/'] := rfl
  have hdata : (("http://" ++ host) ++ renderPath ["solr", p2, p3]
        ++ (match q with | none => "" | some qq => "?" ++ qq)).data
      = 'h' :: 't' :: 't' :: 'p' :: ':' :: '/' :: '/'
        :: (host.data ++ ((renderPath ["solr", p2, p3]).data
          ++ (match q with | none => "" | some qq => "?" ++ qq).data)) := by
    simp [String.data_append, hscheme]
  show ((afterSchemeAux _).dropWhile (fun c => !(c == '/'))).takeWhile (fun c => !(c == '?')) = _
  rw [hdata, afterSchemeAux_http]
  rw [dropWhileAppendAll _ host.data _ (fun x hx => by
    have : (x == '/') = false := beq_eq_false_iff_ne.mpr (hhost x hx)
    simp [this])]
  rw [renderPath3_data]
  have hcons : (('/' :: ("solr".data ++ '/' :: (p2.data ++ '/' :: p3.data)))
        ++ (match q with | none => "" | some qq => "?" ++ qq).data)
      = '/' :: (("solr".data ++ '/' :: (p2.data ++ '/' :: p3.data))
        ++ (match q with | none => "" | some qq => "?" ++ qq).data) := rfl
  rw [hcons, List.dropWhile_cons]
  simp only [beq_self_eq_true, Bool.not_true, Bool.false_eq_true, if_false]
  have hL : ∀ x ∈ '/' :: ("solr".data ++ '/' :: (p2.data ++ '/' :: p3.data)), x ≠ '?' := by
    intro x hx
    rcases List.mem_cons.mp hx with rfl | hx
    · decide
    · rcases List.mem_append.mp hx with hx | hx
      · have hsolr : "solr".data = ['s', 'o', 'l', 'r'] := rfl
        rw [hsolr] at hx
        fin_cases hx <;> decide
      · rcases List.mem_cons.mp hx with rfl | hx
        · decide
        · rcases List.mem_append.mp hx with hx | hx
          · exact (hp2 x hx).2.1
          · rcases List.mem_cons.mp hx with rfl | hx
            · decide
            · exact (hp3 x hx).2.1
  have hq2 : (match q with | none => "" | some qq => "?" ++ qq).data = []
      ∨ ∃ t, (match q with | none => "" | some qq => "?" ++ qq).data = '?' :: t := by
    cases q with
    | none => exact Or.inl rfl
    | some qq =>
        refine Or.inr ⟨qq.data, ?_⟩
        simp [String.data_append]
  have := takeWhile_path ('/' :: ("solr".data ++ '/' :: (p2.data ++ '/' :: p3.data)))
    ((match q with | none => "" | some qq => "?" ++ qq).data) hL hq2
  simpa using this

/-- Rendering the three-segment path equals the plainly concatenated
`/solr/<c>/<h>` string. -/
theorem renderPath3_eq (b c : String) :
    renderPath ["solr", b, c] = "/solr/" ++ b ++ "/" ++ c := by
  apply strEq_of_data
  rw [renderPath3_data]
  have h1 : ("/solr/" : String).data = ['/', 's', 'o', 'l', 'r', '/'] := rfl
  have h2 : ("/" : String).data = ['/'] := rfl
  have h3 : ("solr" : String).data = ['s', 'o', 'l', 'r'] := rfl
  simp [String.data_append, h1, h2, h3]

/-- C6: building a client on base `http://<host>` with any fluent call
sequence whose last handler call sets `h`, the rendered URL parses back
to the path `/solr/<collection>/<handler>` — both segments
percent-encoded — which splits on `/` into exactly those two segments
after `solr`; the encoded handler contains no raw slash, the encoder
maps `/` to `%2F`, and `update/json/docs` encodes to
`update%2Fjson%2Fdocs` as a single segment. -/
theorem C6_theorem (host col h : String) (cs1 cs2 : List BuilderCall) (cfin : Client)
    (hhost : ∀ x ∈ host.data, x ≠ '/' ∧ x ≠ '?')
    (hcs2 : ∀ b ∈ cs2, b.isHandler = false)
    (hc : cfin = applyCalls (Client.new ("http://" ++ host) col)
      (cs1 ++ BuilderCall.request_handler h :: cs2)) :
    parseUrlPath cfin.url_str
      = "/solr/" ++ pathSegmentEncode col ++ "/" ++ pathSegmentEncode h
    ∧ splitSep '/' (parseUrlPath cfin.url_str).data
      = [[], "solr".data, (pathSegmentEncode col).data, (pathSegmentEncode h).data]
    ∧ (∀ x ∈ (pathSegmentEncode h).data, x ≠ '/')
    ∧ segEncChar '/' = "%2F".data
    ∧ pathSegmentEncode "update/json/docs" = "update%2Fjson%2Fdocs" := by
  have hbase : cfin.url.base = "http://" ++ host := by
    rw [hc]
    exact applyCalls_base _ _
  have hsegs : cfin.url.pathSegs = ["solr", pathSegmentEncode col, pathSegmentEncode h] := by
    rw [hc, applyCalls, List.foldl_append, List.foldl_cons]
    have hmidcol : (List.foldl applyCall (Client.new ("http://" ++ host) col) cs1).collection
        = col := applyCalls_collection cs1 _
    have hstep : (applyCall (List.foldl applyCall (Client.new ("http://" ++ host) col) cs1)
        (BuilderCall.request_handler h)).url.pathSegs
        = ["solr",
            pathSegmentEncode (List.foldl applyCall
              (Client.new ("http://" ++ host) col) cs1).collection,
            pathSegmentEncode h] := rfl
    exact (applyCalls_pathSegs cs2 _ hcs2).trans (by rw [hstep, hmidcol])
  have hrender : cfin.url_str = ("http://" ++ host)
      ++ renderPath ["solr", pathSegmentEncode col, pathSegmentEncode h]
      ++ (match cfin.url.query with | none => "" | some qq => "?" ++ qq) := by
    show cfin.url.base ++ renderPath cfin.url.pathSegs ++ _ = _
    rw [hbase, hsegs]
  have hparse : parseUrlPath cfin.url_str
      = renderPath ["solr", pathSegmentEncode col, pathSegmentEncode h] := by
    rw [hrender]
    exact parseUrlPath_render host (pathSegmentEncode col) (pathSegmentEncode h)
      cfin.url.query (fun x hx => (hhost x hx).1)
      (pathSegmentEncode_safe col) (pathSegmentEncode_safe h)
  have hsolrdata : ("solr" : String).data = ['s', 'o', 'l', 'r'] := rfl
  refine ⟨?_, ?_, fun x hx => (pathSegmentEncode_safe h x hx).1, rfl, rfl⟩
  · rw [hparse, renderPath3_eq]
  · rw [hparse]
    rw [renderPath3_data]
    have hsplit1 : splitSep '/'
        ('/' :: ("solr".data ++ '/' :: ((pathSegmentEncode col).data
          ++ '/' :: (pathSegmentEncode h).data)))
        = [[]] ++ splitSep '/' ("solr".data ++ '/' :: ((pathSegmentEncode col).data
          ++ '/' :: (pathSegmentEncode h).data)) := by
      have : ('/' :: ("solr".data ++ '/' :: ((pathSegmentEncode col).data
          ++ '/' :: (pathSegmentEncode h).data)))
          = [] ++ '/' :: ("solr".data ++ '/' :: ((pathSegmentEncode col).data
            ++ '/' :: (pathSegmentEncode h).data)) := rfl
      rw [this, splitSep_append]
      rfl
    rw [hsplit1, splitSep_append, splitSep_append]
    rw [splitSep_of_not_mem '/' "solr".data (by rw [hsolrdata]; decide)]
    rw [splitSep_of_not_mem '/' (pathSegmentEncode col).data
      (fun x hx => (pathSegmentEncode_safe col x hx).1)]
    rw [splitSep_of_not_mem '/' (pathSegmentEncode h).data
      (fun x hx => (pathSegmentEncode_safe h x hx).1)]
    rfl

/-- C6 witness: a select-style call sequence on collection `c` with the
slash-carrying handler `update/json/docs` and a trailing parameter
call. -/
theorem C6_theorem_witness :
    parseUrlPath (applyCalls (Client.new ("http://" ++ "host:8983") "c")
        ([BuilderCall.query "*:*"]
          ++ BuilderCall.request_handler "update/json/docs" :: [BuilderCall.auto_commit])).url_str
      = "/solr/" ++ pathSegmentEncode "c" ++ "/" ++ pathSegmentEncode "update/json/docs" :=
  ( C6_theorem "host:8983" "c" "update/json/docs"
    [BuilderCall.query "*:*"] [BuilderCall.auto_commit]
    (applyCalls (Client.new ("http://" ++ "host:8983") "c")
      ([BuilderCall.query "*:*"]
        ++ BuilderCall.request_handler "update/json/docs" :: [BuilderCall.auto_commit]))
    (by decide) (by decide) rfl).1
